import Mathlib

/-!
Shallow embedding of the salary-slip application's data-munging core
(header normalization, column classification, salary-slip calculation,
numeric display formatting, and the upload state transition), translated
from the application source.  Spreadsheet cells are modelled by an
inductive `Cell`; numeric cell payloads are exact rationals (the source
manipulates Python ints/floats; every behaviour examined here is exact in
the rationals).  Python string primitives used by the source
(`in`, `startswith`, `strip`, `lower`, `upper`, `isdigit`, `replace`,
`float`) are modelled on `List Char`.
-/

/-- Anchored match: `subInit pat l` is true when `pat` is an initial
segment of `l` (the kernel of Python's `str.startswith`). -/
def subInit : List Char → List Char → Bool
  | [], _ => true
  | _ :: _, [] => false
  | a :: as, b :: bs => a == b && subInit as bs

/-- Substring containment on character lists (Python's `in` on strings). -/
def hasSubList (pat : List Char) : List Char → Bool
  | [] => pat.isEmpty
  | b :: bs => subInit pat (b :: bs) || hasSubList pat bs

/-- Python `needle in hay` for strings. -/
def strContains (hay needle : String) : Bool :=
  hasSubList needle.data hay.data

/-- Python `s.startswith(pat)`. -/
def strStarts (s pat : String) : Bool :=
  subInit pat.data s.data

/-- Strip leading and trailing whitespace from a character list. -/
def stripList (l : List Char) : List Char :=
  ((l.dropWhile Char.isWhitespace).reverse.dropWhile Char.isWhitespace).reverse

/-- Python `s.strip()`. -/
def pyStrip (s : String) : String :=
  String.mk (stripList s.data)

/-- Case folding to lower case: ASCII plus the accented letters appearing
in the source's keyword literals. -/
def chLower (c : Char) : Char :=
  if c = 'Ọ' then 'ọ' else if c = 'Ê' then 'ê' else if c = 'Â' then 'â'
  else if c = 'Ư' then 'ư' else if c = 'Ơ' then 'ơ' else if c = 'Đ' then 'đ'
  else if c = 'Ă' then 'ă' else if c = 'Ố' then 'ố' else if c = 'Ộ' then 'ộ'
  else c.toLower

/-- Case folding to upper case: ASCII plus the accented letters appearing
in the source's keyword literals. -/
def chUpper (c : Char) : Char :=
  if c = 'ọ' then 'Ọ' else if c = 'ê' then 'Ê' else if c = 'â' then 'Â'
  else if c = 'ư' then 'Ư' else if c = 'ơ' then 'Ơ' else if c = 'đ' then 'Đ'
  else if c = 'ă' then 'Ă' else if c = 'ố' then 'Ố' else if c = 'ộ' then 'Ộ'
  else c.toUpper

/-- Python `s.lower()` (over the alphabet the source uses). -/
def toLowerPy (s : String) : String :=
  String.mk (s.data.map chLower)

/-- Python `s.upper()` (over the alphabet the source uses). -/
def toUpperPy (s : String) : String :=
  String.mk (s.data.map chUpper)

/-- Decimal digit characters of a natural number, most significant first
(fuel-based total recursion). -/
def natDigitsAux : ℕ → ℕ → List Char
  | 0, _ => []
  | f + 1, n => if n = 0 then [] else natDigitsAux f (n / 10) ++ [Char.ofNat (48 + n % 10)]

/-- Decimal digit characters of a natural number (`"0"` for zero). -/
def natDigits (n : ℕ) : List Char :=
  if n = 0 then ['0'] else natDigitsAux (n + 1) n

/-- Python `str` of a nonnegative integer. -/
def natLabel (n : ℕ) : String :=
  String.mk (natDigits n)

/-- Python `str` of an integer. -/
def intLabel (n : ℤ) : String :=
  (if n < 0 then "-" else "") ++ natLabel n.natAbs

/-- Value of a digit-character list read in base 10. -/
def digitsVal (l : List Char) : ℕ :=
  l.foldl (fun a c => a * 10 + (c.toNat - 48)) 0

/-- Python `float(s)` on a decimal literal: optional surrounding
whitespace, optional sign, digits with at most one point and at least one
digit.  Returns the exact rational value; `none` models `ValueError`. -/
def parseNum (s : String) : Option ℚ :=
  let t := stripList s.data
  let core : List Char → Option ℚ := fun u =>
    let ip := u.takeWhile (fun c => c ≠ '.')
    let rest := u.dropWhile (fun c => c ≠ '.')
    match rest with
    | [] =>
      if ip ≠ [] ∧ ip.all Char.isDigit then some ((digitsVal ip : ℤ) : ℚ) else none
    | _ :: fp =>
      if (ip ≠ [] ∨ fp ≠ []) ∧ ip.all Char.isDigit ∧ fp.all Char.isDigit then
        some ((digitsVal ip : ℚ) + (digitsVal fp : ℚ) / ((10 : ℚ) ^ fp.length))
      else none
  match t with
  | '-' :: u => (core u).map (fun q => -q)
  | '+' :: u => core u
  | u => core u

/-- Nonempty all-digit test (Python `s.isdigit()`). -/
def isDigitStr (s : String) : Bool :=
  decide (s.data ≠ []) && s.data.all Char.isDigit

/-- Python `s.replace('.', '')`. -/
def removeDots (s : String) : String :=
  String.mk (s.data.filter (fun c => c ≠ '.'))

/-- Spreadsheet cell: missing (`NaN`), text, or numeric. -/
inductive Cell
  | empty
  | str (s : String)
  | num (q : ℚ)
deriving DecidableEq

/-- Boolean non-missing test (`pd.notna`). -/
def cellNotna (c : Cell) : Bool :=
  c != Cell.empty

/-- Fractional decimal digits of a rational in `[0, 1)`, fuel-bounded
(exact for the terminating decimals the source handles). -/
def fracDigits : ℕ → ℚ → List Char
  | 0, _ => []
  | f + 1, q =>
    if q = 0 then [] else
      Char.ofNat (48 + (Rat.floor (q * 10)).toNat) ::
        fracDigits f (q * 10 - Rat.floor (q * 10))

/-- Python `str` of a cell value: integer-valued numeric cells print as
ints, other numerics as decimals; missing cells print as `"nan"`
(the source guards every use with `pd.notna`). -/
def cellStr (c : Cell) : String :=
  match c with
  | Cell.empty => "nan"
  | Cell.str s => s
  | Cell.num q =>
    if q.den = 1 then intLabel q.num
    else
      (if q < 0 then "-" else "") ++ natLabel (Rat.floor |q|).toNat ++ "." ++
        String.mk (fracDigits 30 (|q| - Rat.floor |q|))

/-- Python `float(cell)`: numerics pass through, strings parse as decimal
literals, missing fails (the source applies it only to non-missing
values). -/
def pyFloat (c : Cell) : Option ℚ :=
  match c with
  | Cell.empty => none
  | Cell.str s => parseNum s
  | Cell.num q => some q

/-- Pandas `pd.to_numeric(_, errors='coerce')` on one cell. -/
def toNumericCell (c : Cell) : Option ℚ :=
  pyFloat c

/-- Normalized or raw table: ordered column labels plus rows of cells,
positionally aligned with the labels. -/
structure DF where
  cols : List String
  rows : List (List Cell)
deriving DecidableEq

/-- Raw positional column labels `"0", "1", ...` produced by reading a
sheet with `header=None`. -/
def rawCols (n : ℕ) : List String :=
  (List.range n).map natLabel

/-- Raw sheet as a table. -/
def rawDF (n : ℕ) (grid : List (List Cell)) : DF :=
  ⟨rawCols n, grid⟩

/-- Round-half-to-even to an integer, the rounding performed by Python's
`format(x, ',.0f')` on exactly representable values.  The comparison of
the fractional part against one half is done on numerators
(`r2 / (2 den)` versus `den / (2 den)`), keeping the function
kernel-computable. -/
def roundHalfEven (q : ℚ) : ℤ :=
  let f := Rat.floor q
  let r2 := 2 * (q.num - f * (q.den : ℤ))
  if r2 < (q.den : ℤ) then f
  else if (q.den : ℤ) < r2 then f + 1
  else if f % 2 = 0 then f else f + 1

/-- Group a reversed digit list into threes separated by `'.'`
(the `','` of Python's format, already replaced as the source does). -/
def groupRev : List Char → List Char
  | a :: b :: c :: d :: rest => a :: b :: c :: '.' :: groupRev (d :: rest)
  | l => l

/-- Integer with `.`-separated thousands groups, as the source's
`f"{n:,}".replace(",", ".")`. -/
def intThousands (n : ℤ) : String :=
  (if n < 0 then "-" else "") ++ String.mk ((groupRev (natDigits n.natAbs).reverse).reverse)

/-- Source `format_number`: display formatting of a numeric slip field
(`None`/`0` blank, integers grouped, non-integers rounded half-to-even
then grouped; the negative-zero display `"-0"` of Python is not
modelled, nor is the unreachable fallback branch for non-numeric
input). -/
def format_number (val : Option ℚ) : String :=
  match val with
  | none => ""
  | some q =>
    if q = 0 then ""
    else if q.den = 1 then intThousands q.num
    else intThousands (roundHalfEven q)

/-- Source `is_valid_column`: rejects auto-generated, underscore, blank,
`nan`, and numeric-parseable labels.  Labels are strings (raw positional
labels are modelled by their Python `str` form), so the `pd.isna` test on
the label is always false. -/
def is_valid_column (col : String) : Bool :=
  let c := pyStrip col
  if strStarts c "Unnamed" || strStarts c "Col_" || strStarts c "_" then false
  else if c == "nan" || c == "NaN" || c == "" then false
  else if (parseNum c).isSome then false
  else true

/-- True when a column label matches one of the keywords after
lowercasing both sides. -/
def colMatches (col : String) (keywords : List String) : Bool :=
  keywords.any (fun k => strContains (toLowerPy col) (toLowerPy k))

/-- Source `find_column_by_keywords`: scans `df.columns` in declaration
order and returns the first column whose lowercased name contains any of
the keywords. -/
def find_column_by_keywords (df : DF) (keywords : List String) : Option String :=
  df.cols.find? (fun col => colMatches col keywords)

/-- Header-marker test for employee-info sheets: one of the row's
stringified values contains the literal tokens scanned by the source
(case-sensitive). -/
def infoRowMarker (row : List Cell) : Bool :=
  row.any (fun c => strContains (cellStr c) "Họ tên" || strContains (cellStr c) "STT")

/-- Header-marker test for salary sheets: the uppercased stringified row
contains one of the tokens scanned by the source. -/
def luongRowMarker (row : List Cell) : Bool :=
  row.any (fun c =>
    let u := toUpperPy (cellStr c)
    strContains u "HỌ TÊN" || strContains u "HO TEN" || strContains u "NHÂN VIÊN")

/-- Scan at most the first five rows for the header marker, returning the
first matching row index (the source's `for i in range(min(5, len(df)))`
loop). -/
def findHeaderRowAux (marker : List Cell → Bool) : ℕ → List (List Cell) → Option ℕ
  | _, [] => none
  | i, r :: rest =>
    if 5 ≤ i then none
    else if marker r then some i
    else findHeaderRowAux marker (i + 1) rest

/-- Header-cell text: missing and `Unnamed`-prefixed cells contribute
nothing, others contribute their stripped string form. -/
def hdrCellText (c : Cell) : String :=
  match c with
  | Cell.empty => ""
  | _ => if strStarts (cellStr c) "Unnamed" then "" else pyStrip (cellStr c)

/-- Blank a header text that parses as a truthy float (the source's
`if main_str and float(main_str): main_str = ''`; note `float("0")` is
falsy, so a literal `"0"` survives). -/
def blankIfNumber (s : String) : String :=
  if s ≠ "" ∧ (parseNum s).getD 0 ≠ 0 then "" else s

/-- Header text contributed by one cell after both filters (missing,
`Unnamed`, and truthy-numeric cells contribute nothing). -/
def topText (c : Cell) : String :=
  blankIfNumber (hdrCellText c)

/-- Last non-empty top-level header text of a list of cells, starting
from a given carried value (the loop's `last_valid_main`). -/
def lastTopFrom (init : String) (cells : List Cell) : String :=
  cells.foldl (fun acc m => if topText m ≠ "" then topText m else acc) init

/-- Last non-empty top-level header text of a list of cells. -/
def lastTop (cells : List Cell) : String :=
  lastTopFrom "" cells

/-- Two-level header merge, position-indexed, threading the last
non-empty top-level text (merged-cell carry-forward). -/
def combineHeadersAux : ℕ → String → List (Cell × Cell) → List String
  | _, _, [] => []
  | i, lastMain, (m, s) :: rest =>
    let m2 := topText m
    let s2 := topText s
    let lv := if m2 ≠ "" then m2 else lastMain
    let comb :=
      if s2 ≠ "" ∧ m2 ≠ "" then m2 ++ " - " ++ s2
      else if s2 ≠ "" then (if lv ≠ "" then lv ++ " - " ++ s2 else s2)
      else if m2 ≠ "" then m2
      else "_Col_" ++ natLabel i
    comb :: combineHeadersAux (i + 1) lv rest

/-- Combined column names from the header row and the row below it. -/
def combineHeaders (main sub : List Cell) : List String :=
  combineHeadersAux 0 "" (main.zip sub)

/-- Decorative-index-row test: the non-missing values among the first
three cells are at least one and each is all digits after removing `'.'`
characters (the source's `check_row.head(3)` filter). -/
def skipCheckRow (row : List Cell) : Bool :=
  let fv := (row.take 3).filterMap (fun c => if c = Cell.empty then none else some (cellStr c))
  decide (fv ≠ []) && fv.all (fun s => isDigitStr (removeDots s))

/-- Project a row to the positions whose label does not start with an
underscore (the source's `df[cols_to_keep]`). -/
def projectCols (cols : List String) (row : List Cell) : List Cell :=
  (cols.zip row).filterMap (fun p => if strStarts p.1 "_" then none else some p.2)

/-- Index of the first element satisfying a test, counting from `i`. -/
def findIdxAux (p : String → Bool) : ℕ → List String → Option ℕ
  | _, [] => none
  | i, c :: rest => if p c then some i else findIdxAux p (i + 1) rest

/-- Position of the identifier column: first label whose uppercased form
contains `STT`. -/
def findSttIdx (cols : List String) : Option ℕ :=
  findIdxAux (fun c => strContains (toUpperPy c) "STT") 0 cols

/-- Replace the cell at position `p` by its numeric coercion
(`pd.to_numeric(..., errors='coerce')` writes the coerced column back). -/
def coerceAt (p : ℕ) (row : List Cell) : List Cell :=
  row.set p
    (match toNumericCell (row.getD p Cell.empty) with
     | some q => Cell.num q
     | none => Cell.empty)

/-- Keep a coerced row when its identifier value is present and at least
one. -/
def sttKeep (p : ℕ) (row : List Cell) : Bool :=
  match row.getD p Cell.empty with
  | Cell.num q => decide (1 ≤ q)
  | _ => false

/-- Identifier-column stage: coerce the identifier column to numeric and
drop rows whose value is missing or below one.  `reset_index` is the
identity in the list model (row positions are list positions). -/
def sttStage (df : DF) : DF :=
  match findSttIdx df.cols with
  | none => df
  | some p =>
    { cols := df.cols,
      rows := (df.rows.map (coerceAt p)).filter (sttKeep p) }

/-- Drop rows that are entirely missing across the retained columns
(`dropna(how='all')`). -/
def dropEmptyRows (rows : List (List Cell)) : List (List Cell) :=
  rows.filter (fun r => r.any cellNotna)

/-- Shared body of the two `clean_dataframe` branches (they are verbatim
copies in the source, differing only in the header-marker test). -/
def cleanWith (marker : List Cell → Bool) (df : DF) : DF :=
  let df1 :=
    match findHeaderRowAux marker 0 df.rows with
    | none => df
    | some r =>
      let main := df.rows.getD r []
      let sub :=
        if r + 1 < df.rows.length then df.rows.getD (r + 1) []
        else List.replicate main.length Cell.empty
      let combined := combineHeaders main sub
      let ds0 := r + 2
      let ds :=
        if ds0 < df.rows.length then
          (if skipCheckRow (df.rows.getD ds0 []) then ds0 + 1 else ds0)
        else ds0
      { cols := combined, rows := df.rows.drop ds }
  let keptCols := df1.cols.filter (fun c => !(strStarts c "_"))
  let df2 : DF := { cols := keptCols, rows := df1.rows.map (projectCols df1.cols) }
  let df3 : DF := { df2 with rows := dropEmptyRows df2.rows }
  sttStage df3

/-- Sheet-name hint for the employee-info branch. -/
def isInfoHint (name : String) : Bool :=
  strContains (toLowerPy name) "thông tin" || strContains (toLowerPy name) "thong tin"

/-- Sheet-name hint for the salary branch. -/
def isLuongHint (name : String) : Bool :=
  strContains (toLowerPy name) "lương" || strContains (toLowerPy name) "luong"

/-- Source `clean_dataframe`: dispatch on the sheet-name hint; an
unrecognized hint passes the grid through unchanged. -/
def clean_dataframe (df : DF) (sheet_name : String) : DF :=
  if isInfoHint sheet_name then cleanWith infoRowMarker df
  else if isLuongHint sheet_name then cleanWith luongRowMarker df
  else df

/-- Source `find_employee_name_column`. -/
def find_employee_name_column (df : DF) : Option String :=
  df.cols.find? (fun c =>
    let l := toLowerPy c
    strContains l "họ tên" || strContains l "ho ten" || strContains l "tên nhân viên")

/-- Source `find_employee_email_column`. -/
def find_employee_email_column (df : DF) : Option String :=
  df.cols.find? (fun c =>
    let l := toLowerPy c
    strContains l "email" || strContains l "mail" || strContains l "e-mail")

/-- A table row viewed as a pandas `Series`: label/value pairs in column
order (duplicate labels resolve to the first occurrence, as `Series`
label access does for the tables built here). -/
abbrev Record : Type := List (String × Cell)

/-- Label access `row[col]` (`none` when the label is absent). -/
def rowGet (row : Record) (c : String) : Option Cell :=
  (List.find? (fun p => p.1 == c) row).map (fun p => p.2)

/-- Label membership `col in row.index`. -/
def rowHas (row : Record) (c : String) : Bool :=
  List.any row (fun p => p.1 == c)

/-- Pair a row of a table with its column labels. -/
def toRecord (cols : List String) (row : List Cell) : Record :=
  cols.zip row

/-- Python truthiness of a cell value (`if email:`); a `NaN` is truthy,
an empty string or zero is falsy. -/
def cellTruthy (c : Cell) : Bool :=
  match c with
  | Cell.empty => true
  | Cell.str s => s != ""
  | Cell.num q => q != 0

/-- Employee-list entry built at upload time. -/
structure EmployeeEntry where
  index : ℕ
  name : String
  email : Option String
deriving DecidableEq

/-- Source `get_employees_list`: one entry per row whose name value is
present and non-blank after stripping; the email is attached when
present, truthy, and containing `@`. -/
def get_employees_list (df : DF) : List EmployeeEntry :=
  match find_employee_name_column df with
  | none => []
  | some nameCol =>
    let emailCol := find_employee_email_column df
    (df.rows.enum).filterMap (fun p =>
      let row := toRecord df.cols p.2
      match rowGet row nameCol with
      | none => none
      | some nv =>
        if cellNotna nv && (pyStrip (cellStr nv) != "") then
          some
            { index := p.1,
              name := pyStrip (cellStr nv),
              email :=
                match emailCol with
                | none => none
                | some ec =>
                  match rowGet row ec with
                  | none => none
                  | some ev =>
                    if cellTruthy ev && cellNotna ev && strContains (cellStr ev) "@" then
                      some (pyStrip (cellStr ev))
                    else none }
        else none)

/-- Salary-slip value object (the source's `data` dict with its nine
extracted fields and three derived totals). -/
structure Slip where
  ho_ten : String
  luong_thoa_thuan : ℚ
  luong_dong : ℚ
  so_tai_khoan : String
  ten_ngan_hang : String
  luong_thuc_te : ℚ
  bhxh : ℚ
  doan_phi : ℚ
  thue_tncn : ℚ
  tong_khoan_tru : ℚ
  tong_thu_nhap : ℚ
  luong_thuc_nhan : ℚ
deriving DecidableEq

/-- Default slip values before extraction. -/
def Slip.init : Slip :=
  ⟨"", 0, 0, "", "", 0, 0, 0, 0, 0, 0, 0⟩

/-- Bank-account rule of the employee-info scan (the source's
`số tài khoản` if/elif pair). -/
def bankAccountStage (l v : String) (acc : Slip) : Slip :=
  if strContains l "số tài khoản" && strContains l "ngân hàng" then
    { acc with so_tai_khoan := v }
  else if strContains l "số tài khoản" && (acc.so_tai_khoan == "") then
    { acc with so_tai_khoan := v }
  else acc

/-- Bank-name rule of the employee-info scan (the source's
`tại ngân hàng` if/elif pair). -/
def bankNameStage (l v : String) (acc : Slip) : Slip :=
  if strContains l "tại ngân hàng" || (strContains l "ngân hàng" && strContains l "chi nhánh") then
    { acc with ten_ngan_hang := v }
  else if strContains l "ngân hàng" && !(strContains l "số") && (acc.ten_ngan_hang == "") then
    { acc with ten_ngan_hang := v }
  else acc

/-- One step of the employee-info column scan: bank-account then
bank-name keyword rules, translated clause for clause from the source's
loop body. -/
def infoStep (acc : Slip) (p : String × Cell) : Slip :=
  if p.2 = Cell.empty then acc
  else bankNameStage (toLowerPy p.1) (cellStr p.2) (bankAccountStage (toLowerPy p.1) (cellStr p.2) acc)

/-- Agreed/actual-salary rule (`thuế tncn` + `tổng thu nhập` with the
four exclusions); note it writes both fields from the same column. -/
def salaryStage1 (l : String) (num_val : ℚ) (acc : Slip) : Slip :=
  if strContains l "thuế tncn" && strContains l "tổng thu nhập" &&
      !(strContains l "chưa") && !(strContains l "chịu") &&
      !(strContains l "tính") && !(strContains l "bao gồm") then
    { acc with luong_thoa_thuan := num_val, luong_thuc_te := num_val }
  else acc

/-- Base-salary rule (`lương cơ bản`). -/
def salaryStage2 (l : String) (num_val : ℚ) (acc : Slip) : Slip :=
  if strContains l "lương cơ bản" then { acc with luong_dong := num_val } else acc

/-- Social-insurance rule (the `phải nộp` + `tổng cộng` if/elif pair). -/
def salaryStage3 (l : String) (num_val : ℚ) (acc : Slip) : Slip :=
  if strContains l "người lao động phải nộp" && strContains l "tổng cộng" then
    { acc with bhxh := num_val }
  else if strContains l "nld phải nộp" && strContains l "tổng cộng" then
    { acc with bhxh := num_val }
  else acc

/-- Union-fee rule (the `phí đoàn viên` if/elif pair, the second clause
firing only while the fee is still zero). -/
def salaryStage4 (l : String) (num_val : ℚ) (acc : Slip) : Slip :=
  if strContains l "kinh phí công đoàn" && strContains l "phí đoàn viên" then
    { acc with doan_phi := num_val }
  else if strContains l "phí đoàn viên" && (acc.doan_phi == 0) then
    { acc with doan_phi := num_val }
  else acc

/-- Personal-income-tax rule (`thuế tncn phải nộp` excluding `tr` and
`%`). -/
def salaryStage5 (l : String) (num_val : ℚ) (acc : Slip) : Slip :=
  if strContains l "thuế tncn phải nộp" && !(strContains l "tr") && !(strContains l "%") then
    { acc with thue_tncn := num_val }
  else acc

/-- One step of the salary-record column scan: the five numeric keyword
rules of the source's loop body in order (`num_val` is `float(val)` with
failures read as zero). -/
def salaryStep (acc : Slip) (p : String × Cell) : Slip :=
  if p.2 = Cell.empty then acc
  else
    let l := toLowerPy p.1
    let num_val : ℚ := (pyFloat p.2).getD 0
    salaryStage5 l num_val (salaryStage4 l num_val (salaryStage3 l num_val
      (salaryStage2 l num_val (salaryStage1 l num_val acc))))

/-- Slip after the name lookup (`if name_col and name_col in
employee_info.index`): the full name is set from the name column when it
is present and non-missing. -/
def slipWithName (employee_info : Record) (df_info : DF) : Slip :=
  match find_employee_name_column df_info with
  | some c =>
    if c ≠ "" ∧ rowHas employee_info c then
      match rowGet employee_info c with
      | some v => if cellNotna v then { Slip.init with ho_ten := cellStr v } else Slip.init
      | none => Slip.init
    else Slip.init
  | none => Slip.init

/-- Source `get_salary_slip_data`: extract the slip fields from one
employee record and its optional salary record, then derive the three
totals.  `df_luong` is accepted and unused, as in the source. -/
def get_salary_slip_data (employee_info : Record) (salary_data : Option Record)
    (df_info : DF) (df_luong : DF) : Slip :=
  let d2 := employee_info.foldl infoStep (slipWithName employee_info df_info)
  let d3 :=
    match salary_data with
    | some sd => sd.foldl salaryStep d2
    | none => d2
  { d3 with
    tong_khoan_tru := d3.bhxh + d3.doan_phi + d3.thue_tncn,
    tong_thu_nhap := d3.luong_thuc_te,
    luong_thuc_nhan := d3.luong_thuc_te - (d3.bhxh + d3.doan_phi + d3.thue_tncn) }

/-- One per-attempt email-status record (contents opaque to the claims
settled here). -/
structure EmailStat where
  sent : Bool
  success : Bool
  message : String
  time : String
deriving DecidableEq

/-- Process-wide mutable store (the source's `data_store`), with the
email-status map modelled as an association list keyed by row
position. -/
structure DataStore where
  thong_tin : Option DF
  luong : Option DF
  columns_thong_tin : List String
  columns_luong : List String
  employees_list : List EmployeeEntry
  email_status : List (ℕ × EmailStat)
deriving DecidableEq

/-- The store at process start. -/
def initialStore : DataStore :=
  ⟨none, none, [], [], [], []⟩

/-- Per-sheet step of the upload loop: clean the sheet, then store it
under its role when its name matches a hint (the `elif` means a name
matching both hints takes the employee-info branch). -/
def uploadSheet (st : DataStore) (p : String × DF) : DataStore :=
  let cleaned := clean_dataframe p.2 p.1
  if isInfoHint p.1 then
    { st with
      thong_tin := some cleaned,
      columns_thong_tin := cleaned.cols.filter is_valid_column,
      employees_list := get_employees_list cleaned }
  else if isLuongHint p.1 then
    { st with
      luong := some cleaned,
      columns_luong := cleaned.cols.filter is_valid_column }
  else st

/-- Source `upload_file` on a successfully parsed workbook (a list of
sheet-name/raw-grid pairs): process every sheet in order, then reset the
email-status map. -/
def upload_file (store : DataStore) (wb : List (String × DF)) : DataStore :=
  let s1 := wb.foldl uploadSheet store
  { s1 with email_status := [] }

/-- View of the employee-info and employee-list components of the store
(the fields rewritten by the upload loop's employee-info branch). -/
def infoPart (st : DataStore) : Option DF × List String × List EmployeeEntry :=
  (st.thong_tin, st.columns_thong_tin, st.employees_list)

/-- View of the salary components of the store (the fields rewritten by
the upload loop's salary branch). -/
def luongPart (st : DataStore) : Option DF × List String :=
  (st.luong, st.columns_luong)

/-- A sheet-name/grid pair takes the upload loop's salary branch exactly
when it misses the employee-info hint and matches the salary hint. -/
def takesLuongBranch (p : String × DF) : Bool :=
  !(isInfoHint p.1) && isLuongHint p.1

/-- Concrete raw sheet exercising the decorative-index-row check: the
row two below the header has a missing first cell, digit strings at
positions one and two, and a non-digit string at position three. -/
def c5df : DF :=
  rawDF 4
    [[Cell.str "Họ tên", Cell.str "A", Cell.str "B", Cell.str "C"],
     [Cell.empty, Cell.empty, Cell.empty, Cell.empty],
     [Cell.empty, Cell.str "1", Cell.str "2", Cell.str "x"],
     [Cell.str "z1", Cell.str "z2", Cell.str "z3", Cell.str "z4"]]

/-- Concrete raw sheet whose identifier column carries the values
`1, 2, "x", 0, 3` on the five data rows. -/
def c7df : DF :=
  rawDF 2
    [[Cell.str "STT", Cell.str "Họ tên"],
     [Cell.empty, Cell.empty],
     [Cell.num 1, Cell.str "a"],
     [Cell.num 2, Cell.str "b"],
     [Cell.str "x", Cell.str "c"],
     [Cell.num 0, Cell.str "d"],
     [Cell.num 3, Cell.str "e"]]

/-- A previously uploaded salary table. -/
def oldLuong : DF :=
  ⟨["lương cũ"], [[Cell.str "old"]]⟩

/-- A store left over from a previous upload: a salary table and one
email-status entry are present. -/
def storeA : DataStore :=
  ⟨none, some oldLuong, [], ["lương cũ"], [], [(0, ⟨true, true, "ok", "t"⟩)]⟩

/-- A workbook holding only an employee-info sheet. -/
def wbA : List (String × DF) :=
  [("thong tin", rawDF 1 [[Cell.str "STT"], [Cell.str "5"]])]

/-! General-purpose lemmas about the string and list primitives of the
embedding. -/

lemma find?_eq_some_spec {p : String → Bool} :
    ∀ (l : List String) (c : String), l.find? p = some c →
      p c = true ∧ ∃ l1 l2, l = l1 ++ c :: l2 ∧ ∀ x ∈ l1, p x = false := by
  intro l
  induction l with
  | nil => intro c h; simp [List.find?] at h
  | cons a t ih =>
    intro c h
    by_cases hpa : p a = true
    · rw [List.find?_cons_of_pos _ hpa] at h
      cases h
      exact ⟨hpa, [], t, rfl, by simp⟩
    · rw [List.find?_cons_of_neg _ (by simpa using hpa)] at h
      obtain ⟨h1, l1, l2, hsplit, hall⟩ := ih c h
      refine ⟨h1, a :: l1, l2, by rw [hsplit]; rfl, ?_⟩
      intro x hx
      rcases List.mem_cons.mp hx with rfl | hx
      · simpa using hpa
      · exact hall x hx

lemma find?_eq_none_spec {p : String → Bool} (l : List String)
    (h : l.find? p = none) : ∀ c ∈ l, p c = false := by
  intro c hc
  have := List.find?_eq_none.mp h c hc
  simpa using this

lemma find?_congr_pred {p q : String → Bool} (h : ∀ c, p c = q c) :
    ∀ l : List String, l.find? p = l.find? q := by
  intro l
  induction l with
  | nil => rfl
  | cons a t ih =>
    by_cases hpa : p a = true
    · rw [List.find?_cons_of_pos _ hpa, List.find?_cons_of_pos _ ((h a) ▸ hpa)]
    · have hpa' : p a = false := by simpa using hpa
      rw [List.find?_cons_of_neg _ (by simp [hpa']),
        List.find?_cons_of_neg _ (by simp [← h a, hpa']), ih]

lemma hasSubList_head_mem {a : Char} {as l : List Char}
    (h : hasSubList (a :: as) l = true) : a ∈ l := by
  induction l with
  | nil => simp [hasSubList, List.isEmpty] at h
  | cons b bs ih =>
    rw [hasSubList, Bool.or_eq_true] at h
    rcases h with h | h
    · rw [subInit, Bool.and_eq_true] at h
      have : a = b := by simpa using h.1
      simp [this]
    · exact List.mem_cons_of_mem b (ih h)

lemma digitChar_props {d : ℕ} (hd : d ≤ 9) :
    chUpper (Char.ofNat (48 + d)) = Char.ofNat (48 + d) ∧
    ((Char.ofNat (48 + d)) == '_') = false ∧
    ('_' == (Char.ofNat (48 + d))) = false ∧
    ('S' == (Char.ofNat (48 + d))) = false ∧
    (Char.ofNat (48 + d)).isWhitespace = false := by
  interval_cases d <;> exact ⟨rfl, rfl, rfl, rfl, rfl⟩

lemma natDigitsAux_shape :
    ∀ (f n : ℕ) (c : Char), c ∈ natDigitsAux f n → ∃ d, d ≤ 9 ∧ c = Char.ofNat (48 + d) := by
  intro f
  induction f with
  | zero => intro n c h; simp [natDigitsAux] at h
  | succ f ih =>
    intro n c h
    rw [natDigitsAux] at h
    by_cases hn : n = 0
    · simp [hn] at h
    · rw [if_neg hn, List.mem_append] at h
      rcases h with h | h
      · exact ih _ _ h
      · have hc : c = Char.ofNat (48 + n % 10) := by simpa using h
        exact ⟨n % 10, by omega, hc⟩

lemma natDigits_shape {k : ℕ} {c : Char} (h : c ∈ natDigits k) :
    ∃ d, d ≤ 9 ∧ c = Char.ofNat (48 + d) := by
  rw [natDigits] at h
  by_cases hk : k = 0
  · rw [if_pos hk] at h
    exact ⟨0, by omega, by simpa using h⟩
  · rw [if_neg hk] at h
    exact natDigitsAux_shape _ _ _ h

lemma natDigits_ne_nil (k : ℕ) : natDigits k ≠ [] := by
  rw [natDigits]
  by_cases hk : k = 0
  · simp [hk]
  · rw [if_neg hk, natDigitsAux, if_neg hk]
    simp

lemma natLabel_not_underscore (k : ℕ) : strStarts (natLabel k) "_" = false := by
  obtain ⟨c, t, hct⟩ := List.exists_cons_of_ne_nil (natDigits_ne_nil k)
  have hmem : c ∈ natDigits k := by rw [hct]; simp
  obtain ⟨d, hd, rfl⟩ := natDigits_shape hmem
  show subInit "_".data (natLabel k).data = false
  have hdata : (natLabel k).data = Char.ofNat (48 + d) :: t := hct
  rw [hdata]
  show subInit ['_'] (Char.ofNat (48 + d) :: t) = false
  rw [subInit]
  simp [(digitChar_props hd).2.2.1]

lemma natLabel_no_STT (k : ℕ) : strContains (toUpperPy (natLabel k)) "STT" = false := by
  have hmap : (natDigits k).map chUpper = natDigits k := by
    rw [List.map_congr_left (fun c hc => ?_), List.map_id]
    obtain ⟨d, hd, rfl⟩ := natDigits_shape hc
    exact (digitChar_props hd).1
  show hasSubList "STT".data (((natLabel k).data).map chUpper) = false
  have hdata : (natLabel k).data = natDigits k := rfl
  rw [hdata, hmap]
  rw [Bool.eq_false_iff]
  intro htrue
  have hS : 'S' ∈ natDigits k := hasSubList_head_mem htrue
  obtain ⟨d, hd, hsd⟩ := natDigits_shape hS
  have := (digitChar_props hd).2.2.2.1
  rw [← hsd] at this
  simp at this

lemma stripList_id {l : List Char}
    (h1 : l.dropWhile Char.isWhitespace = l)
    (h2 : l.reverse.dropWhile Char.isWhitespace = l.reverse) :
    stripList l = l := by
  rw [stripList, h1, h2, List.reverse_reverse]

lemma projectCols_id :
    ∀ (cols : List String) (row : List Cell), cols.length = row.length →
      (∀ c ∈ cols, strStarts c "_" = false) → projectCols cols row = row := by
  intro cols
  induction cols with
  | nil =>
    intro row h _
    have : row = [] := by
      cases row with
      | nil => rfl
      | cons v vs => simp at h
    subst this
    rfl
  | cons c t ih =>
    intro row h hall
    cases row with
    | nil => simp at h
    | cons v vs =>
      have hc : strStarts c "_" = false := hall c (by simp)
      show ((c :: t).zip (v :: vs)).filterMap _ = v :: vs
      rw [List.zip_cons_cons, List.filterMap_cons]
      simp only [hc]
      rw [if_neg (by simp)]
      exact congrArg (v :: ·) (ih vs (by simpa using h) (fun x hx => hall x (by simp [hx])))

lemma findIdxAux_none {p : String → Bool} :
    ∀ (l : List String) (i : ℕ), (∀ c ∈ l, p c = false) → findIdxAux p i l = none := by
  intro l
  induction l with
  | nil => intro i _; rfl
  | cons c t ih =>
    intro i hall
    rw [findIdxAux, if_neg (by simp [hall c (by simp)])]
    exact ih _ (fun x hx => hall x (by simp [hx]))

lemma combineHeadersAux_length :
    ∀ (l : List (Cell × Cell)) (i : ℕ) (last : String),
      (combineHeadersAux i last l).length = l.length := by
  intro l
  induction l with
  | nil => intro i last; rfl
  | cons p t ih => intro i last; rw [combineHeadersAux]; simpa using ih _ _

lemma combineHeaders_length (main sub : List Cell) :
    (combineHeaders main sub).length = min main.length sub.length := by
  rw [combineHeaders, combineHeadersAux_length, List.length_zip]

lemma getD_mem {α : Type} {l : List α} {n : ℕ} (h : n < l.length) (d : α) :
    l.getD n d ∈ l := by
  rw [List.getD_eq_getElem?_getD, List.getElem?_eq_getElem h]
  simp [List.getElem_mem]

lemma rawCols_length (n : ℕ) : (rawCols n).length = n := by
  rw [rawCols, List.length_map, List.length_range]

lemma mem_rawCols {n : ℕ} {c : String} (h : c ∈ rawCols n) : ∃ k, c = natLabel k := by
  obtain ⟨k, _, rfl⟩ := List.mem_map.mp h
  exact ⟨k, rfl⟩

/-! Lemmas about the rounding used by `format_number`. -/

lemma rat_floor_eq (q : ℚ) : Rat.floor q = ⌊q⌋ := by
  rw [Rat.floor_def' q, Rat.floor_def]

lemma num_eq_mul_den (q : ℚ) : (q.num : ℚ) = q * ((q.den : ℕ) : ℚ) := by
  have hd : ((q.den : ℕ) : ℚ) ≠ 0 := by exact_mod_cast q.den_nz
  have h := Rat.num_div_den q
  rw [div_eq_iff hd] at h
  exact h

lemma cast_fract_scaled (q : ℚ) :
    ((q.num - ⌊q⌋ * (q.den : ℤ) : ℤ) : ℚ) = (q - (⌊q⌋ : ℚ)) * ((q.den : ℕ) : ℚ) := by
  push_cast
  rw [sub_mul, ← num_eq_mul_den]

lemma rhe_branch_iff (q : ℚ) :
    (2 * (q.num - Rat.floor q * (q.den : ℤ)) < (q.den : ℤ) ↔ q - (⌊q⌋ : ℚ) < 1 / 2) ∧
    ((q.den : ℤ) < 2 * (q.num - Rat.floor q * (q.den : ℤ)) ↔ 1 / 2 < q - (⌊q⌋ : ℚ)) := by
  rw [rat_floor_eq]
  have hd : (0 : ℚ) < ((q.den : ℕ) : ℚ) := by exact_mod_cast q.pos
  have hA := cast_fract_scaled q
  constructor
  · constructor
    · intro h
      have h' : (2 : ℚ) * ((q.num - ⌊q⌋ * (q.den : ℤ) : ℤ) : ℚ) < ((q.den : ℕ) : ℚ) := by
        exact_mod_cast h
      rw [hA] at h'
      nlinarith
    · intro h
      have h' : (2 : ℚ) * ((q.num - ⌊q⌋ * (q.den : ℤ) : ℤ) : ℚ) < ((q.den : ℕ) : ℚ) := by
        rw [hA]
        nlinarith
      exact_mod_cast h'
  · constructor
    · intro h
      have h' : ((q.den : ℕ) : ℚ) < (2 : ℚ) * ((q.num - ⌊q⌋ * (q.den : ℤ) : ℤ) : ℚ) := by
        exact_mod_cast h
      rw [hA] at h'
      nlinarith
    · intro h
      have h' : ((q.den : ℕ) : ℚ) < (2 : ℚ) * ((q.num - ⌊q⌋ * (q.den : ℤ) : ℤ) : ℚ) := by
        rw [hA]
        nlinarith
      exact_mod_cast h'

lemma fract_bounds (q : ℚ) : 0 ≤ q - (⌊q⌋ : ℚ) ∧ q - (⌊q⌋ : ℚ) < 1 := by
  constructor
  · rw [Int.self_sub_floor]
    exact Int.fract_nonneg q
  · rw [Int.self_sub_floor]
    exact Int.fract_lt_one q

lemma rhe_nearest (q : ℚ) : |q - ((roundHalfEven q : ℤ) : ℚ)| ≤ 1 / 2 := by
  obtain ⟨h1, h2⟩ := rhe_branch_iff q
  obtain ⟨hf0, hf1⟩ := fract_bounds q
  rw [rat_floor_eq] at h1 h2
  unfold roundHalfEven
  rw [rat_floor_eq]
  show |q - ((if 2 * (q.num - ⌊q⌋ * (q.den : ℤ)) < (q.den : ℤ) then ⌊q⌋
      else if (q.den : ℤ) < 2 * (q.num - ⌊q⌋ * (q.den : ℤ)) then ⌊q⌋ + 1
      else if ⌊q⌋ % 2 = 0 then ⌊q⌋ else ⌊q⌋ + 1 : ℤ) : ℚ)| ≤ 1 / 2
  split_ifs with ha hb hc
  · rw [h1] at ha
    rw [abs_le]
    constructor <;> linarith
  · rw [h2] at hb
    push_cast
    rw [abs_le]
    constructor <;> linarith
  · have ha' : ¬(q - (⌊q⌋ : ℚ) < 1 / 2) := fun hh => ha (h1.mpr hh)
    have hb' : ¬(1 / 2 < q - (⌊q⌋ : ℚ)) := fun hh => hb (h2.mpr hh)
    rw [abs_le]
    constructor <;> [linarith [not_lt.mp hb']; linarith [not_lt.mp ha']]
  · have ha' : ¬(q - (⌊q⌋ : ℚ) < 1 / 2) := fun hh => ha (h1.mpr hh)
    have hb' : ¬(1 / 2 < q - (⌊q⌋ : ℚ)) := fun hh => hb (h2.mpr hh)
    push_cast
    rw [abs_le]
    constructor <;> [linarith [not_lt.mp hb']; linarith [not_lt.mp ha']]

/-! Invariance lemmas for the slip extraction folds. -/

lemma bankAccountStage_fields (l v : String) (acc : Slip) :
    (bankAccountStage l v acc).ho_ten = acc.ho_ten ∧
    (bankAccountStage l v acc).luong_thoa_thuan = acc.luong_thoa_thuan ∧
    (bankAccountStage l v acc).luong_dong = acc.luong_dong ∧
    (bankAccountStage l v acc).luong_thuc_te = acc.luong_thuc_te ∧
    (bankAccountStage l v acc).bhxh = acc.bhxh ∧
    (bankAccountStage l v acc).doan_phi = acc.doan_phi ∧
    (bankAccountStage l v acc).thue_tncn = acc.thue_tncn := by
  unfold bankAccountStage
  split_ifs <;> simp

lemma bankNameStage_fields (l v : String) (acc : Slip) :
    (bankNameStage l v acc).ho_ten = acc.ho_ten ∧
    (bankNameStage l v acc).luong_thoa_thuan = acc.luong_thoa_thuan ∧
    (bankNameStage l v acc).luong_dong = acc.luong_dong ∧
    (bankNameStage l v acc).luong_thuc_te = acc.luong_thuc_te ∧
    (bankNameStage l v acc).bhxh = acc.bhxh ∧
    (bankNameStage l v acc).doan_phi = acc.doan_phi ∧
    (bankNameStage l v acc).thue_tncn = acc.thue_tncn := by
  unfold bankNameStage
  split_ifs <;> simp

lemma infoStep_fields (acc : Slip) (p : String × Cell) :
    (infoStep acc p).ho_ten = acc.ho_ten ∧
    (infoStep acc p).luong_thoa_thuan = acc.luong_thoa_thuan ∧
    (infoStep acc p).luong_dong = acc.luong_dong ∧
    (infoStep acc p).luong_thuc_te = acc.luong_thuc_te ∧
    (infoStep acc p).bhxh = acc.bhxh ∧
    (infoStep acc p).doan_phi = acc.doan_phi ∧
    (infoStep acc p).thue_tncn = acc.thue_tncn := by
  by_cases he : p.2 = Cell.empty
  · simp [infoStep, he]
  · simp only [infoStep, if_neg he]
    obtain ⟨a1, a2, a3, a4, a5, a6, a7⟩ :=
      bankAccountStage_fields (toLowerPy p.1) (cellStr p.2) acc
    obtain ⟨b1, b2, b3, b4, b5, b6, b7⟩ :=
      bankNameStage_fields (toLowerPy p.1) (cellStr p.2)
        (bankAccountStage (toLowerPy p.1) (cellStr p.2) acc)
    exact ⟨b1.trans a1, b2.trans a2, b3.trans a3, b4.trans a4,
      b5.trans a5, b6.trans a6, b7.trans a7⟩

lemma foldl_infoStep_fields :
    ∀ (l : Record) (acc : Slip),
      (l.foldl infoStep acc).luong_thoa_thuan = acc.luong_thoa_thuan ∧
      (l.foldl infoStep acc).luong_dong = acc.luong_dong ∧
      (l.foldl infoStep acc).luong_thuc_te = acc.luong_thuc_te ∧
      (l.foldl infoStep acc).bhxh = acc.bhxh ∧
      (l.foldl infoStep acc).doan_phi = acc.doan_phi ∧
      (l.foldl infoStep acc).thue_tncn = acc.thue_tncn := by
  intro l
  induction l with
  | nil => intro acc; exact ⟨rfl, rfl, rfl, rfl, rfl, rfl⟩
  | cons p t ih =>
    intro acc
    obtain ⟨h2, h3, h4, h5, h6, h7⟩ := ih (infoStep acc p)
    obtain ⟨-, g2, g3, g4, g5, g6, g7⟩ := infoStep_fields acc p
    exact ⟨by rw [List.foldl_cons, h2, g2], by rw [List.foldl_cons, h3, g3],
      by rw [List.foldl_cons, h4, g4], by rw [List.foldl_cons, h5, g5],
      by rw [List.foldl_cons, h6, g6], by rw [List.foldl_cons, h7, g7]⟩

lemma salaryStage1_pair (l : String) (n : ℚ) (acc : Slip)
    (h : acc.luong_thoa_thuan = acc.luong_thuc_te) :
    (salaryStage1 l n acc).luong_thoa_thuan = (salaryStage1 l n acc).luong_thuc_te := by
  unfold salaryStage1
  split_ifs <;> simp_all

lemma salaryStage2_pair (l : String) (n : ℚ) (acc : Slip) :
    (salaryStage2 l n acc).luong_thoa_thuan = acc.luong_thoa_thuan ∧
    (salaryStage2 l n acc).luong_thuc_te = acc.luong_thuc_te := by
  unfold salaryStage2
  split_ifs <;> simp

lemma salaryStage3_pair (l : String) (n : ℚ) (acc : Slip) :
    (salaryStage3 l n acc).luong_thoa_thuan = acc.luong_thoa_thuan ∧
    (salaryStage3 l n acc).luong_thuc_te = acc.luong_thuc_te := by
  unfold salaryStage3
  split_ifs <;> simp

lemma salaryStage4_pair (l : String) (n : ℚ) (acc : Slip) :
    (salaryStage4 l n acc).luong_thoa_thuan = acc.luong_thoa_thuan ∧
    (salaryStage4 l n acc).luong_thuc_te = acc.luong_thuc_te := by
  unfold salaryStage4
  split_ifs <;> simp

lemma salaryStage5_pair (l : String) (n : ℚ) (acc : Slip) :
    (salaryStage5 l n acc).luong_thoa_thuan = acc.luong_thoa_thuan ∧
    (salaryStage5 l n acc).luong_thuc_te = acc.luong_thuc_te := by
  unfold salaryStage5
  split_ifs <;> simp

lemma salaryStep_pair (acc : Slip) (p : String × Cell)
    (h : acc.luong_thoa_thuan = acc.luong_thuc_te) :
    (salaryStep acc p).luong_thoa_thuan = (salaryStep acc p).luong_thuc_te := by
  by_cases he : p.2 = Cell.empty
  · simpa [salaryStep, he] using h
  · simp only [salaryStep, if_neg he]
    obtain ⟨a5, b5⟩ := salaryStage5_pair (toLowerPy p.1) ((pyFloat p.2).getD 0)
      (salaryStage4 (toLowerPy p.1) ((pyFloat p.2).getD 0)
        (salaryStage3 (toLowerPy p.1) ((pyFloat p.2).getD 0)
          (salaryStage2 (toLowerPy p.1) ((pyFloat p.2).getD 0)
            (salaryStage1 (toLowerPy p.1) ((pyFloat p.2).getD 0) acc))))
    obtain ⟨a4, b4⟩ := salaryStage4_pair (toLowerPy p.1) ((pyFloat p.2).getD 0)
      (salaryStage3 (toLowerPy p.1) ((pyFloat p.2).getD 0)
        (salaryStage2 (toLowerPy p.1) ((pyFloat p.2).getD 0)
          (salaryStage1 (toLowerPy p.1) ((pyFloat p.2).getD 0) acc)))
    obtain ⟨a3, b3⟩ := salaryStage3_pair (toLowerPy p.1) ((pyFloat p.2).getD 0)
      (salaryStage2 (toLowerPy p.1) ((pyFloat p.2).getD 0)
        (salaryStage1 (toLowerPy p.1) ((pyFloat p.2).getD 0) acc))
    obtain ⟨a2, b2⟩ := salaryStage2_pair (toLowerPy p.1) ((pyFloat p.2).getD 0)
      (salaryStage1 (toLowerPy p.1) ((pyFloat p.2).getD 0) acc)
    have h1 := salaryStage1_pair (toLowerPy p.1) ((pyFloat p.2).getD 0) acc h
    rw [a5, b5, a4, b4, a3, b3, a2, b2]
    exact h1

lemma foldl_salaryStep_pair :
    ∀ (l : Record) (acc : Slip), acc.luong_thoa_thuan = acc.luong_thuc_te →
      (l.foldl salaryStep acc).luong_thoa_thuan = (l.foldl salaryStep acc).luong_thuc_te := by
  intro l
  induction l with
  | nil => intro acc h; simpa using h
  | cons p t ih =>
    intro acc h
    rw [List.foldl_cons]
    exact ih _ (salaryStep_pair acc p h)

lemma slipWithName_fields (employee_info : Record) (df_info : DF) :
    (slipWithName employee_info df_info).luong_thoa_thuan = 0 ∧
    (slipWithName employee_info df_info).luong_dong = 0 ∧
    (slipWithName employee_info df_info).luong_thuc_te = 0 ∧
    (slipWithName employee_info df_info).bhxh = 0 ∧
    (slipWithName employee_info df_info).doan_phi = 0 ∧
    (slipWithName employee_info df_info).thue_tncn = 0 := by
  unfold slipWithName
  rcases find_employee_name_column df_info with _ | c
  · exact ⟨rfl, rfl, rfl, rfl, rfl, rfl⟩
  · dsimp only
    split_ifs
    · rcases rowGet employee_info c with _ | v
      · exact ⟨rfl, rfl, rfl, rfl, rfl, rfl⟩
      · dsimp only
        split_ifs <;> exact ⟨rfl, rfl, rfl, rfl, rfl, rfl⟩
    · exact ⟨rfl, rfl, rfl, rfl, rfl, rfl⟩

/-! Invariance lemmas for the upload loop. -/

lemma uploadSheet_info_skip (st : DataStore) (p : String × DF)
    (h : isInfoHint p.1 = false) : infoPart (uploadSheet st p) = infoPart st := by
  simp only [uploadSheet, h, Bool.false_eq_true, if_false]
  split <;> rfl

lemma uploadSheet_info_set (st st2 : DataStore) (p : String × DF)
    (h : isInfoHint p.1 = true) :
    infoPart (uploadSheet st p) = infoPart (uploadSheet st2 p) := by
  simp only [uploadSheet, h, eq_self_iff_true, if_true]
  rfl

lemma uploadSheet_luong_skip (st : DataStore) (p : String × DF)
    (h : takesLuongBranch p = false) : luongPart (uploadSheet st p) = luongPart st := by
  rw [takesLuongBranch, Bool.and_eq_false_iff] at h
  by_cases hi : isInfoHint p.1 = true
  · simp only [uploadSheet, hi, eq_self_iff_true, if_true]
    rfl
  · have hi' : isInfoHint p.1 = false := by simpa using hi
    have hl : isLuongHint p.1 = false := by
      rcases h with h | h
      · rw [hi'] at h; simp at h
      · exact h
    simp only [uploadSheet, hi', hl, Bool.false_eq_true, if_false]

lemma uploadSheet_luong_set (st st2 : DataStore) (p : String × DF)
    (h : takesLuongBranch p = true) :
    luongPart (uploadSheet st p) = luongPart (uploadSheet st2 p) := by
  rw [takesLuongBranch, Bool.and_eq_true] at h
  have hi : isInfoHint p.1 = false := by simpa using h.1
  simp only [uploadSheet, hi, h.2, Bool.false_eq_true, if_false, eq_self_iff_true, if_true]
  rfl

lemma fold_info_skip :
    ∀ (wb : List (String × DF)) (st : DataStore),
      (∀ p ∈ wb, isInfoHint p.1 = false) →
      infoPart (wb.foldl uploadSheet st) = infoPart st := by
  intro wb
  induction wb with
  | nil => intro st _; rfl
  | cons q t ih =>
    intro st hall
    rw [List.foldl_cons, ih _ (fun p hp => hall p (by simp [hp])),
      uploadSheet_info_skip st q (hall q (by simp))]

lemma fold_info_indep :
    ∀ (wb : List (String × DF)), wb.any (fun p => isInfoHint p.1) = true →
      ∀ st st2 : DataStore,
        infoPart (wb.foldl uploadSheet st) = infoPart (wb.foldl uploadSheet st2) := by
  intro wb
  induction wb with
  | nil => intro h; simp at h
  | cons q t ih =>
    intro h st st2
    rw [List.foldl_cons, List.foldl_cons]
    by_cases ht : t.any (fun p => isInfoHint p.1) = true
    · exact ih ht _ _
    · have ht0 : (t.any fun p => isInfoHint p.1) = false := by simpa using ht
      have ht' : ∀ p ∈ t, isInfoHint p.1 = false := by
        intro p hp
        have := List.any_eq_false.mp ht0 p hp
        simpa using this
      have hq : isInfoHint q.1 = true := by
        rw [List.any_cons, Bool.or_eq_true] at h
        rcases h with h | h
        · exact h
        · exact absurd h ht
      rw [fold_info_skip t (uploadSheet st q) ht', fold_info_skip t (uploadSheet st2 q) ht']
      exact uploadSheet_info_set st st2 q hq

lemma fold_luong_skip :
    ∀ (wb : List (String × DF)) (st : DataStore),
      (∀ p ∈ wb, takesLuongBranch p = false) →
      luongPart (wb.foldl uploadSheet st) = luongPart st := by
  intro wb
  induction wb with
  | nil => intro st _; rfl
  | cons q t ih =>
    intro st hall
    rw [List.foldl_cons, ih _ (fun p hp => hall p (by simp [hp])),
      uploadSheet_luong_skip st q (hall q (by simp))]

lemma fold_luong_indep :
    ∀ (wb : List (String × DF)), wb.any takesLuongBranch = true →
      ∀ st st2 : DataStore,
        luongPart (wb.foldl uploadSheet st) = luongPart (wb.foldl uploadSheet st2) := by
  intro wb
  induction wb with
  | nil => intro h; simp at h
  | cons q t ih =>
    intro h st st2
    rw [List.foldl_cons, List.foldl_cons]
    by_cases ht : t.any takesLuongBranch = true
    · exact ih ht _ _
    · have ht0 : t.any takesLuongBranch = false := by simpa using ht
      have ht' : ∀ p ∈ t, takesLuongBranch p = false := by
        intro p hp
        have := List.any_eq_false.mp ht0 p hp
        simpa using this
      have hq : takesLuongBranch q = true := by
        rw [List.any_cons, Bool.or_eq_true] at h
        rcases h with h | h
        · exact h
        · exact absurd h ht
      rw [fold_luong_skip t (uploadSheet st q) ht', fold_luong_skip t (uploadSheet st2 q) ht']
      exact uploadSheet_luong_set st st2 q hq

/-! Lemmas about the normalizer pipeline. -/

lemma findHeaderRowAux_none (marker : List Cell → Bool) :
    ∀ (rows : List (List Cell)) (j : ℕ),
      (∀ i, i < rows.length → j + i < 5 → marker (rows.getD i []) = false) →
      findHeaderRowAux marker j rows = none := by
  intro rows
  induction rows with
  | nil => intro j _; rfl
  | cons r rest ih =>
    intro j h
    rw [findHeaderRowAux]
    by_cases h5 : 5 ≤ j
    · rw [if_pos h5]
    · have hm : marker r = false := by
        have := h 0 (by simp) (by omega)
        simpa using this
      rw [if_neg h5, if_neg (by simp [hm])]
      exact ih (j + 1) (fun i hi h5i => by
        have := h (i + 1) (by simpa using Nat.succ_lt_succ hi) (by omega)
        simpa using this)

lemma tail_stages_id (cols : List String) (rows : List (List Cell))
    (hlen : ∀ row ∈ rows, row.length = cols.length)
    (hcols : ∀ c ∈ cols, strStarts c "_" = false)
    (hstt : ∀ c ∈ cols, strContains (toUpperPy c) "STT" = false) :
    sttStage ⟨cols.filter (fun c => !(strStarts c "_")),
      dropEmptyRows (rows.map (projectCols cols))⟩ =
    ⟨cols, dropEmptyRows rows⟩ := by
  have hkeep : cols.filter (fun c => !(strStarts c "_")) = cols :=
    List.filter_eq_self.mpr (fun c hc => by rw [hcols c hc]; rfl)
  have hproj : rows.map (projectCols cols) = rows := by
    rw [List.map_congr_left
      (fun row hrow => projectCols_id cols row (hlen row hrow).symm hcols)]
    exact List.map_id' rows
  rw [hkeep, hproj]
  have hfind : findSttIdx cols = none := findIdxAux_none cols 0 hstt
  unfold sttStage
  dsimp only
  rw [hfind]

lemma cleanWith_nofind (marker : List Cell → Bool) (df : DF)
    (hnone : findHeaderRowAux marker 0 df.rows = none)
    (hlen : ∀ row ∈ df.rows, row.length = df.cols.length)
    (hcols : ∀ c ∈ df.cols, strStarts c "_" = false)
    (hstt : ∀ c ∈ df.cols, strContains (toUpperPy c) "STT" = false) :
    cleanWith marker df = ⟨df.cols, dropEmptyRows df.rows⟩ := by
  unfold cleanWith
  rw [hnone]
  dsimp only
  exact tail_stages_id df.cols df.rows hlen hcols hstt

lemma dropEmptyRows_id {rows : List (List Cell)}
    (h : ∀ row ∈ rows, row.any cellNotna = true) : dropEmptyRows rows = rows :=
  List.filter_eq_self.mpr h

lemma cleanWith_find (marker : List Cell → Bool) (df : DF) (r n : ℕ)
    (hfind : findHeaderRowAux marker 0 df.rows = some r)
    (hrect : ∀ row ∈ df.rows, row.length = n)
    (hlt : r + 2 < df.rows.length)
    (hcols : ∀ c ∈ combineHeaders (df.rows.getD r []) (df.rows.getD (r + 1) []),
      strStarts c "_" = false)
    (hstt : ∀ c ∈ combineHeaders (df.rows.getD r []) (df.rows.getD (r + 1) []),
      strContains (toUpperPy c) "STT" = false)
    (hne : ∀ row ∈ df.rows.drop (r + 2), row.any cellNotna = true) :
    cleanWith marker df =
      ⟨combineHeaders (df.rows.getD r []) (df.rows.getD (r + 1) []),
       df.rows.drop (r + 2 + (if skipCheckRow (df.rows.getD (r + 2) []) = true then 1 else 0))⟩ := by
  have hr : r < df.rows.length := by omega
  have hr1 : r + 1 < df.rows.length := by omega
  have hmainlen : (df.rows.getD r []).length = n := hrect _ (getD_mem hr [])
  have hsublen : (df.rows.getD (r + 1) []).length = n := hrect _ (getD_mem hr1 [])
  have hcomblen :
      (combineHeaders (df.rows.getD r []) (df.rows.getD (r + 1) [])).length = n := by
    rw [combineHeaders_length, hmainlen, hsublen, min_self]
  have hlen2 : ∀ (ds : ℕ), r + 2 ≤ ds → ∀ row ∈ df.rows.drop ds,
      row.length = (combineHeaders (df.rows.getD r []) (df.rows.getD (r + 1) [])).length := by
    intro ds _ row hrow
    rw [hcomblen]
    exact hrect row (List.mem_of_mem_drop hrow)
  have hne2 : ∀ (ds : ℕ), ds = r + 2 ∨ ds = r + 3 → ∀ row ∈ df.rows.drop ds,
      row.any cellNotna = true := by
    intro ds hds row hrow
    rcases hds with rfl | rfl
    · exact hne row hrow
    · refine hne row ?_
      have : df.rows.drop (r + 3) = (df.rows.drop (r + 2)).drop 1 := by
        rw [List.drop_drop]
      rw [this] at hrow
      exact List.mem_of_mem_drop hrow
  unfold cleanWith
  rw [hfind]
  dsimp only
  rw [if_pos hr1, if_pos hlt]
  by_cases hs : skipCheckRow (df.rows.getD (r + 2) []) = true
  · rw [if_pos hs, if_pos hs]
    have := tail_stages_id
      (combineHeaders (df.rows.getD r []) (df.rows.getD (r + 1) []))
      (df.rows.drop (r + 2 + 1))
      (hlen2 (r + 2 + 1) (by omega)) hcols hstt
    rw [this]
    rw [dropEmptyRows_id (hne2 (r + 2 + 1) (by omega))]
  · rw [if_neg hs, if_neg hs]
    have := tail_stages_id
      (combineHeaders (df.rows.getD r []) (df.rows.getD (r + 1) []))
      (df.rows.drop (r + 2))
      (hlen2 (r + 2) (by omega)) hcols hstt
    rw [show r + 2 + 0 = r + 2 from rfl, this]
    rw [dropEmptyRows_id (hne2 (r + 2) (by omega))]

lemma take_zip_eq :
    ∀ (main sub : List Cell) (k : ℕ), (main.zip sub).take k = (main.take k).zip (sub.take k) := by
  intro main
  induction main with
  | nil => intro sub k; simp
  | cons m mt ih =>
    intro sub k
    cases sub with
    | nil => simp
    | cons s st =>
      cases k with
      | zero => rfl
      | succ k' =>
        rw [List.zip_cons_cons, List.take_succ_cons, List.take_succ_cons,
          List.take_succ_cons, List.zip_cons_cons, ih]

lemma combineAux_getD :
    ∀ (l : List (Cell × Cell)) (i : ℕ) (last : String) (j : ℕ), j < l.length →
      (combineHeadersAux i last l).getD j "" =
        (let p := l.getD j (Cell.empty, Cell.empty)
         let m2 := topText p.1
         let s2 := topText p.2
         let lv := lastTopFrom last ((l.take (j + 1)).map Prod.fst)
         if s2 ≠ "" ∧ m2 ≠ "" then m2 ++ " - " ++ s2
         else if s2 ≠ "" then (if lv ≠ "" then lv ++ " - " ++ s2 else s2)
         else if m2 ≠ "" then m2
         else "_Col_" ++ natLabel (i + j)) := by
  intro l
  induction l with
  | nil => intro i last j hj; simp at hj
  | cons p t ih =>
    obtain ⟨m, s⟩ := p
    intro i last j hj
    rw [combineHeadersAux]
    cases j with
    | zero =>
      dsimp only [List.getD_cons_zero, List.take_succ_cons, List.take_zero, List.map_cons,
        List.map_nil, lastTopFrom, List.foldl_cons, List.foldl_nil]
      rw [Nat.add_zero]
    | succ j' =>
      have hj' : j' < t.length := by simpa using hj
      rw [List.getD_cons_succ, ih (i + 1) (if topText m ≠ "" then topText m else last) j' hj']
      have hidx : i + 1 + j' = i + (j' + 1) := by omega
      dsimp only [List.getD_cons_succ, List.take_succ_cons, List.map_cons, lastTopFrom,
        List.foldl_cons]
      rw [hidx]

lemma sttStage_cols (d : DF) : (sttStage d).cols = d.cols := by
  unfold sttStage
  split <;> rfl

lemma cleanWith_cols_mem (marker : List Cell → Bool) (df : DF) :
    ∀ c ∈ (cleanWith marker df).cols, strStarts c "_" = false := by
  intro c hc
  unfold cleanWith at hc
  rw [sttStage_cols] at hc
  dsimp only at hc
  have := List.of_mem_filter hc
  simpa using this

lemma placeholder_invalid (k : ℕ) : is_valid_column ("_Col_" ++ natLabel k) = false := by
  have hdata : ("_Col_" ++ natLabel k).data = '_' :: 'C' :: 'o' :: 'l' :: '_' :: natDigits k := by
    rw [String.data_append]
    rfl
  have hstrip : pyStrip ("_Col_" ++ natLabel k) = "_Col_" ++ natLabel k := by
    have hne : (natDigits k).reverse ≠ [] := by
      simpa using natDigits_ne_nil k
    obtain ⟨c, t', hct⟩ := List.exists_cons_of_ne_nil hne
    have hcmem : c ∈ natDigits k := by
      rw [← List.mem_reverse, hct]
      simp
    obtain ⟨d, hd, rfl⟩ := natDigits_shape hcmem
    have hrev : ('_' :: 'C' :: 'o' :: 'l' :: '_' :: natDigits k).reverse
        = Char.ofNat (48 + d) :: (t' ++ ['_', 'l', 'o', 'C', '_']) := by
      rw [show ('_' :: 'C' :: 'o' :: 'l' :: '_' :: natDigits k)
          = ['_', 'C', 'o', 'l', '_'] ++ natDigits k from rfl,
        List.reverse_append, hct]
      rfl
    show String.mk (stripList ("_Col_" ++ natLabel k).data) = "_Col_" ++ natLabel k
    rw [hdata, stripList_id ?h1 ?h2, ← hdata]
    case h1 =>
      rw [List.dropWhile_cons, if_neg (by decide)]
    case h2 =>
      rw [hrev, List.dropWhile_cons,
        if_neg (by simp [(digitChar_props hd).2.2.2.2]), ← hrev]
  have hst : strStarts ("_Col_" ++ natLabel k) "_" = true := by
    show subInit "_".data ("_Col_" ++ natLabel k).data = true
    rw [hdata]
    rfl
  unfold is_valid_column
  dsimp only
  rw [hstrip, hst]
  simp

lemma uploadSheet_cols_valid (st : DataStore) (p : String × DF)
    (h1 : ∀ c ∈ st.columns_thong_tin, is_valid_column c = true)
    (h2 : ∀ c ∈ st.columns_luong, is_valid_column c = true) :
    (∀ c ∈ (uploadSheet st p).columns_thong_tin, is_valid_column c = true) ∧
    (∀ c ∈ (uploadSheet st p).columns_luong, is_valid_column c = true) := by
  unfold uploadSheet
  dsimp only
  split
  · exact ⟨fun c hc => List.of_mem_filter hc, h2⟩
  · split
    · exact ⟨h1, fun c hc => List.of_mem_filter hc⟩
    · exact ⟨h1, h2⟩

lemma fold_cols_valid :
    ∀ (wb : List (String × DF)) (st : DataStore),
      (∀ c ∈ st.columns_thong_tin, is_valid_column c = true) →
      (∀ c ∈ st.columns_luong, is_valid_column c = true) →
      (∀ c ∈ (wb.foldl uploadSheet st).columns_thong_tin, is_valid_column c = true) ∧
      (∀ c ∈ (wb.foldl uploadSheet st).columns_luong, is_valid_column c = true) := by
  intro wb
  induction wb with
  | nil => intro st h1 h2; exact ⟨h1, h2⟩
  | cons q t ih =>
    intro st h1 h2
    obtain ⟨g1, g2⟩ := uploadSheet_cols_valid st q h1 h2
    exact ih (uploadSheet st q) g1 g2

lemma rhe_tie (q : ℚ) (h : q - (⌊q⌋ : ℚ) = 1 / 2) : roundHalfEven q % 2 = 0 := by
  obtain ⟨h1, h2⟩ := rhe_branch_iff q
  rw [rat_floor_eq] at h1 h2
  unfold roundHalfEven
  rw [rat_floor_eq]
  show (if 2 * (q.num - ⌊q⌋ * (q.den : ℤ)) < (q.den : ℤ) then ⌊q⌋
      else if (q.den : ℤ) < 2 * (q.num - ⌊q⌋ * (q.den : ℤ)) then ⌊q⌋ + 1
      else if ⌊q⌋ % 2 = 0 then ⌊q⌋ else ⌊q⌋ + 1) % 2 = 0
  split_ifs with ha hb hc
  · rw [h1] at ha
    linarith
  · rw [h2] at hb
    linarith
  · exact hc
  · omega

/-! Claim theorems. -/

/-- Claim C1 counterexample: with columns `["bar", "apple"]` and keywords
`["apple", "bar"]`, a column (`"apple"`) matches the first keyword, yet
`find_column_by_keywords` returns `"bar"`, whose lowercased name does not
contain the first keyword — keyword list order is not the priority
order. -/
theorem c1_counterexample :
    colMatches "apple" ["apple", "bar"] = true ∧
    "apple" ∈ (DF.mk ["bar", "apple"] []).cols ∧
    find_column_by_keywords ⟨["bar", "apple"], []⟩ ["apple", "bar"] = some "bar" ∧
    strContains (toLowerPy "bar") (toLowerPy "apple") = false := by
  refine ⟨by decide, by decide, by decide, by decide⟩

/-- Claim C1 (amended): `find_column_by_keywords` scans the columns in
table-declaration order and returns the first column whose lowercased
name contains at least one of the keywords; it returns none exactly when
no column matches any keyword, and the order of the keyword list is
irrelevant to the result. -/
theorem c1_theorem (df : DF) (keywords : List String) :
    (∀ c, find_column_by_keywords df keywords = some c →
      colMatches c keywords = true ∧
      ∃ l1 l2, df.cols = l1 ++ c :: l2 ∧ ∀ x ∈ l1, colMatches x keywords = false) ∧
    (find_column_by_keywords df keywords = none →
      ∀ c ∈ df.cols, colMatches c keywords = false) ∧
    (∀ ks1 ks2 : List String,
      find_column_by_keywords df (ks1 ++ ks2) = find_column_by_keywords df (ks2 ++ ks1)) := by
  refine ⟨?_, ?_, ?_⟩
  · intro c h
    exact find?_eq_some_spec df.cols c h
  · intro h
    exact find?_eq_none_spec df.cols h
  · intro ks1 ks2
    unfold find_column_by_keywords
    apply find?_congr_pred
    intro c
    unfold colMatches
    rw [List.any_append, List.any_append, Bool.or_comm]

/-- Claim C1 witness: on columns `["a", "b"]` with keyword `["b"]` the
found column is `"b"`, preceded only by non-matching columns. -/
theorem c1_witness :
    colMatches "b" ["b"] = true ∧
    ∃ l1 l2, (DF.mk ["a", "b"] []).cols = l1 ++ "b" :: l2 ∧
      ∀ x ∈ l1, colMatches x ["b"] = false := by
  have h := c1_theorem ⟨["a", "b"], []⟩ ["b"]
  exact h.1 "b" (by decide)

/-- Claim C2 counterexample: a `thong tin` sheet with no header marker in
its rows is not returned unchanged — the entirely empty second row is
dropped by the post-processing. -/
theorem c2_counterexample :
    isInfoHint "thong tin" = true ∧
    findHeaderRowAux infoRowMarker 0 [[Cell.str "a"], [Cell.empty]] = none ∧
    clean_dataframe (rawDF 1 [[Cell.str "a"], [Cell.empty]]) "thong tin" ≠
      rawDF 1 [[Cell.str "a"], [Cell.empty]] := by
  refine ⟨by decide, by decide, by decide⟩

/-- Claim C2 (amended): when the sheet-name hint matches but no header
marker occurs in the first five rows, header relabeling is skipped, the
raw positional columns are kept unchanged, and the rows are returned in
order except that entirely empty rows are removed. -/
theorem c2_theorem (n : ℕ) (grid : List (List Cell)) (name : String)
    (hrect : ∀ row ∈ grid, row.length = n)
    (hbranch :
      (isInfoHint name = true ∧
        (∀ i, i < min 5 grid.length → infoRowMarker (grid.getD i []) = false)) ∨
      (isInfoHint name = false ∧ isLuongHint name = true ∧
        (∀ i, i < min 5 grid.length → luongRowMarker (grid.getD i []) = false))) :
    clean_dataframe (rawDF n grid) name = ⟨rawCols n, dropEmptyRows grid⟩ := by
  have hlen : ∀ row ∈ (rawDF n grid).rows, row.length = (rawDF n grid).cols.length := by
    intro row hrow
    show row.length = (rawCols n).length
    rw [rawCols_length]
    exact hrect row hrow
  have hcols : ∀ c ∈ (rawDF n grid).cols, strStarts c "_" = false := by
    intro c hc
    obtain ⟨k, rfl⟩ := mem_rawCols hc
    exact natLabel_not_underscore k
  have hstt : ∀ c ∈ (rawDF n grid).cols, strContains (toUpperPy c) "STT" = false := by
    intro c hc
    obtain ⟨k, rfl⟩ := mem_rawCols hc
    exact natLabel_no_STT k
  rcases hbranch with ⟨hinfo, hmk⟩ | ⟨hninfo, hluong, hmk⟩
  · unfold clean_dataframe
    rw [if_pos hinfo]
    exact cleanWith_nofind infoRowMarker (rawDF n grid)
      (findHeaderRowAux_none infoRowMarker grid 0
        (fun i hi h5 => hmk i (lt_min_iff.mpr ⟨by omega, hi⟩))) hlen hcols hstt
  · unfold clean_dataframe
    rw [if_neg (by simp [hninfo]), if_pos hluong]
    exact cleanWith_nofind luongRowMarker (rawDF n grid)
      (findHeaderRowAux_none luongRowMarker grid 0
        (fun i hi h5 => hmk i (lt_min_iff.mpr ⟨by omega, hi⟩))) hlen hcols hstt

/-- Claim C2 witness: the amended statement applied to a concrete one
column `thong tin` sheet with an entirely empty second row. -/
theorem c2_witness :
    clean_dataframe (rawDF 1 [[Cell.str "a"], [Cell.empty]]) "thong tin" =
      ⟨rawCols 1, dropEmptyRows [[Cell.str "a"], [Cell.empty]]⟩ :=
  c2_theorem 1 [[Cell.str "a"], [Cell.empty]] "thong tin" (by decide)
    (Or.inl ⟨by decide, by decide⟩)

/-- Claim C3 counterexample: on `1234.5` (the rational `2469/2`) the
formatter produces `"1.234"`, not the `"1.235"` the claim states,
because Python's `format(x, ',.0f')` rounds ties to even. -/
theorem c3_counterexample :
    (mkRat 2469 2 : ℚ) = 1234.5 ∧
    format_number (some (mkRat 2469 2)) = "1.234" ∧
    format_number (some (mkRat 2469 2)) ≠ "1.235" := by
  refine ⟨by norm_num [Rat.mkRat_eq_div], by decide, by decide⟩

/-- Claim C3 (amended): `format_number` renders `None` and `0` as the
empty string, renders integers with `.`-separated thousands groups and
no decimal part, and rounds non-integers to the nearest whole unit with
ties to even before grouping; in particular `1234567 ↦ "1.234.567"` and
`1234.5 ↦ "1.234"`.  The last two conjuncts state the rounding contract:
`roundHalfEven` is within one half of its argument, and on exact halves
it returns an even integer. -/
theorem c3_theorem :
    format_number none = "" ∧
    format_number (some 0) = "" ∧
    format_number (some 1234567) = "1.234.567" ∧
    (mkRat 2469 2 : ℚ) = 1234.5 ∧
    format_number (some (mkRat 2469 2)) = "1.234" ∧
    (∀ q : ℚ, |q - ((roundHalfEven q : ℤ) : ℚ)| ≤ 1 / 2) ∧
    (∀ q : ℚ, q - (⌊q⌋ : ℚ) = 1 / 2 → roundHalfEven q % 2 = 0) :=
  ⟨by decide, by decide, by decide, by norm_num [Rat.mkRat_eq_div], by decide,
   rhe_nearest, rhe_tie⟩

/-- Claim C3 witness: the tie case at one half rounds to the even
integer zero. -/
theorem c3_witness :
    (mkRat 1 2 : ℚ) - (⌊(mkRat 1 2 : ℚ)⌋ : ℚ) = 1 / 2 ∧
    roundHalfEven (mkRat 1 2) % 2 = 0 := by
  have hf : ⌊(mkRat 1 2 : ℚ)⌋ = 0 := by
    rw [← rat_floor_eq]
    decide
  constructor
  · rw [hf]
    norm_num [Rat.mkRat_eq_div]
  · exact c3_theorem.2.2.2.2.2.2 (mkRat 1 2) (by rw [hf]; norm_num [Rat.mkRat_eq_div])

/-- Claim C4 counterexample: uploading a workbook that contains only an
employee-info sheet leaves the salary table of the previous upload in
place, so the upload does not replace both tables. -/
theorem c4_counterexample :
    (upload_file storeA wbA).luong = some oldLuong ∧
    (upload_file storeA wbA).luong ≠ (upload_file initialStore wbA).luong := by
  refine ⟨by decide, by decide⟩

/-- Claim C4 (amended): every upload resets the email-status map to
empty; a table role is replaced exactly when the workbook contains a
sheet taking that role's branch — if no sheet matches, the prior table
and its derived lists are retained, and if one matches, the resulting
table, column list, and employee list depend only on the workbook, not
on the prior store. -/
theorem c4_theorem (store : DataStore) (wb : List (String × DF)) :
    (upload_file store wb).email_status = [] ∧
    ((∀ p ∈ wb, isInfoHint p.1 = false) →
      (upload_file store wb).thong_tin = store.thong_tin ∧
      (upload_file store wb).columns_thong_tin = store.columns_thong_tin ∧
      (upload_file store wb).employees_list = store.employees_list) ∧
    ((∀ p ∈ wb, takesLuongBranch p = false) →
      (upload_file store wb).luong = store.luong ∧
      (upload_file store wb).columns_luong = store.columns_luong) ∧
    (wb.any (fun p => isInfoHint p.1) = true →
      ∀ store2 : DataStore,
        (upload_file store wb).thong_tin = (upload_file store2 wb).thong_tin ∧
        (upload_file store wb).columns_thong_tin = (upload_file store2 wb).columns_thong_tin ∧
        (upload_file store wb).employees_list = (upload_file store2 wb).employees_list) ∧
    (wb.any takesLuongBranch = true →
      ∀ store2 : DataStore,
        (upload_file store wb).luong = (upload_file store2 wb).luong ∧
        (upload_file store wb).columns_luong = (upload_file store2 wb).columns_luong) := by
  refine ⟨rfl, ?_, ?_, ?_, ?_⟩
  · intro h
    have hfold := fold_info_skip wb store h
    exact ⟨congrArg Prod.fst hfold, congrArg (fun x => x.2.1) hfold,
      congrArg (fun x => x.2.2) hfold⟩
  · intro h
    have hfold := fold_luong_skip wb store h
    exact ⟨congrArg Prod.fst hfold, congrArg Prod.snd hfold⟩
  · intro h store2
    have hfold := fold_info_indep wb h store store2
    exact ⟨congrArg Prod.fst hfold, congrArg (fun x => x.2.1) hfold,
      congrArg (fun x => x.2.2) hfold⟩
  · intro h store2
    have hfold := fold_luong_indep wb h store store2
    exact ⟨congrArg Prod.fst hfold, congrArg Prod.snd hfold⟩

/-- Claim C4 witness: on the concrete workbook with an employee-info
sheet, the email-status is reset and the stored employee-info table does
not depend on the prior store. -/
theorem c4_witness :
    (upload_file initialStore wbA).email_status = [] ∧
    (upload_file initialStore wbA).thong_tin = (upload_file storeA wbA).thong_tin := by
  have h := c4_theorem initialStore wbA
  exact ⟨h.1, (h.2.2.2.1 (by decide) storeA).1⟩

/-- Claim C5 counterexample: in the concrete sheet `c5df`, the row two
below the header is `[empty, "1", "2", "x"]`.  Its first three non-empty
cells are `"1", "2", "x"`, which are not all pure-digit strings, so by
the claim it should be kept as a normal data row; the code instead skips
it (the check looks only at the first three cells), and it is absent
from the normalized rows. -/
theorem c5_counterexample :
    (clean_dataframe c5df "thong tin").rows =
      [[Cell.str "z1", Cell.str "z2", Cell.str "z3", Cell.str "z4"]] ∧
    (([Cell.empty, Cell.str "1", Cell.str "2", Cell.str "x"].filter cellNotna).take 3).map cellStr
      = ["1", "2", "x"] ∧
    ((((([Cell.empty, Cell.str "1", Cell.str "2", Cell.str "x"].filter cellNotna).take 3).map
      cellStr).all isDigitStr) = false) ∧
    [Cell.empty, Cell.str "1", Cell.str "2", Cell.str "x"] ∉
      (clean_dataframe c5df "thong tin").rows := by
  refine ⟨by decide, by decide, by decide, by decide⟩

/-- Claim C5 (amended): for a sheet whose header marker is found at row
`r` (with a row at `r + 2`, rectangular rows, no placeholder or
identifier columns among the combined names, and no entirely empty data
row), the normalized columns are the merged two-level header names and
the data rows are the original rows from index `r + 2` on; exactly one
additional row is skipped if and only if, among the first three cells of
row `r + 2`, the non-missing stringified values are at least one and
each is an all-digit string after removing `'.'` characters
(`skipCheckRow`). -/
theorem c5_theorem (marker : List Cell → Bool) (df : DF) (r n : ℕ)
    (hfind : findHeaderRowAux marker 0 df.rows = some r)
    (hrect : ∀ row ∈ df.rows, row.length = n)
    (hlt : r + 2 < df.rows.length)
    (hcols : ∀ c ∈ combineHeaders (df.rows.getD r []) (df.rows.getD (r + 1) []),
      strStarts c "_" = false)
    (hstt : ∀ c ∈ combineHeaders (df.rows.getD r []) (df.rows.getD (r + 1) []),
      strContains (toUpperPy c) "STT" = false)
    (hne : ∀ row ∈ df.rows.drop (r + 2), row.any cellNotna = true) :
    cleanWith marker df =
      ⟨combineHeaders (df.rows.getD r []) (df.rows.getD (r + 1) []),
       df.rows.drop (r + 2 + (if skipCheckRow (df.rows.getD (r + 2) []) = true then 1 else 0))⟩ :=
  cleanWith_find marker df r n hfind hrect hlt hcols hstt hne

/-- Claim C5 witness: the amended statement applied to the concrete
sheet `c5df`, whose check row triggers the skip. -/
theorem c5_witness :
    cleanWith infoRowMarker c5df =
      ⟨combineHeaders (c5df.rows.getD 0 []) (c5df.rows.getD 1 []),
       c5df.rows.drop (0 + 2 + (if skipCheckRow (c5df.rows.getD (0 + 2) []) = true then 1 else 0))⟩ :=
  c5_theorem infoRowMarker c5df 0 4 (by decide) (by decide) (by decide) (by decide)
    (by decide) (by decide)

/-- Claim C6: the agreed-salary and actual-salary fields of every slip
are equal — both are written only by the rule that matches the same
column, and both default to zero. -/
theorem c6_theorem (employee_info : Record) (salary_data : Option Record)
    (df_info df_luong : DF) :
    (get_salary_slip_data employee_info salary_data df_info df_luong).luong_thoa_thuan =
      (get_salary_slip_data employee_info salary_data df_info df_luong).luong_thuc_te := by
  have h0 := slipWithName_fields employee_info df_info
  have hf := foldl_infoStep_fields employee_info (slipWithName employee_info df_info)
  have hpair :
      (employee_info.foldl infoStep (slipWithName employee_info df_info)).luong_thoa_thuan =
        (employee_info.foldl infoStep (slipWithName employee_info df_info)).luong_thuc_te := by
    rw [hf.1, hf.2.2.1, h0.1, h0.2.2.1]
  cases salary_data with
  | none => exact hpair
  | some sd => exact foldl_salaryStep_pair sd _ hpair

/-- Claim C7: the identifier filtering discards exactly the rows whose
coerced identifier is missing or below one, preserving the order of the
survivors (renumbered by list position); the concrete sheet with
identifier values `1, 2, "x", 0, 3` retains exactly the rows valued
`1, 2, 3` at positions `0, 1, 2`. -/
theorem c7_theorem :
    clean_dataframe c7df "thong tin" =
      ⟨["STT", "Họ tên"],
       [[Cell.num 1, Cell.str "a"], [Cell.num 2, Cell.str "b"], [Cell.num 3, Cell.str "e"]]⟩ ∧
    ∀ (df : DF) (p : ℕ), findSttIdx df.cols = some p →
      (sttStage df).cols = df.cols ∧
      ((sttStage df).rows.Sublist (df.rows.map (coerceAt p))) ∧
      (∀ row ∈ (sttStage df).rows, ∃ q : ℚ, row.getD p Cell.empty = Cell.num q ∧ 1 ≤ q) ∧
      (∀ row ∈ df.rows, sttKeep p (coerceAt p row) = true →
        coerceAt p row ∈ (sttStage df).rows) := by
  constructor
  · decide
  · intro df p hp
    unfold sttStage
    rw [hp]
    refine ⟨rfl, List.filter_sublist _, ?_, ?_⟩
    · intro row hrow
      have hk := List.of_mem_filter hrow
      unfold sttKeep at hk
      rcases hc : row.getD p Cell.empty with _ | s | q
      · rw [hc] at hk
        simp at hk
      · rw [hc] at hk
        simp at hk
      · rw [hc] at hk
        exact ⟨q, rfl, by simpa using hk⟩
    · intro row hrow hkeep
      exact List.mem_filter.mpr ⟨List.mem_map_of_mem _ hrow, hkeep⟩

/-- Claim C7 witness: the identifier-stage contract applied to a
two-row table whose identifier values are `2` and `0`. -/
theorem c7_witness :
    (sttStage ⟨["STT"], [[Cell.num 2], [Cell.num 0]]⟩).cols = ["STT"] ∧
    (sttStage ⟨["STT"], [[Cell.num 2], [Cell.num 0]]⟩).rows.Sublist
      ([[Cell.num 2], [Cell.num 0]].map (coerceAt 0)) := by
  have h := c7_theorem.2 ⟨["STT"], [[Cell.num 2], [Cell.num 0]]⟩ 0 (by decide)
  exact ⟨h.1, h.2.1⟩

/-- Claim C8: the two-level header merge — the concrete example
`["Lương", None, None]` over `["Cơ bản", "Phụ cấp", None]` yields
`["Lương - Cơ bản", "Lương - Phụ cấp", "_Col_2"]`; the output has one
name per zipped column position; when only the sub-level contributes at
a position, the name combines the last non-empty top-level text carried
forward (when any) with the sub text as `"top - sub"`; and when neither
level contributes the positional placeholder is synthesized. -/
theorem c8_theorem :
    combineHeaders [Cell.str "Lương", Cell.empty, Cell.empty]
        [Cell.str "Cơ bản", Cell.str "Phụ cấp", Cell.empty] =
      ["Lương - Cơ bản", "Lương - Phụ cấp", "_Col_2"] ∧
    (∀ main sub : List Cell, (combineHeaders main sub).length = (main.zip sub).length) ∧
    (∀ (main sub : List Cell) (j : ℕ), j < (main.zip sub).length →
      topText ((main.zip sub).getD j (Cell.empty, Cell.empty)).1 = "" →
      topText ((main.zip sub).getD j (Cell.empty, Cell.empty)).2 ≠ "" →
      (combineHeaders main sub).getD j "" =
        (if lastTop (main.take (j + 1)) ≠ "" then
          lastTop (main.take (j + 1)) ++ " - " ++
            topText ((main.zip sub).getD j (Cell.empty, Cell.empty)).2
         else topText ((main.zip sub).getD j (Cell.empty, Cell.empty)).2)) ∧
    (∀ (main sub : List Cell) (j : ℕ), j < (main.zip sub).length →
      topText ((main.zip sub).getD j (Cell.empty, Cell.empty)).1 = "" →
      topText ((main.zip sub).getD j (Cell.empty, Cell.empty)).2 = "" →
      (combineHeaders main sub).getD j "" = "_Col_" ++ natLabel j) := by
  have hmap : ∀ (main sub : List Cell) (j : ℕ), j < (main.zip sub).length →
      (((main.zip sub).take (j + 1)).map Prod.fst) = main.take (j + 1) := by
    intro main sub j hj
    rw [List.length_zip, lt_min_iff] at hj
    rw [take_zip_eq]
    apply List.map_fst_zip
    rw [List.length_take, List.length_take, min_eq_left (by omega), min_eq_left (by omega)]
  refine ⟨by decide, ?_, ?_, ?_⟩
  · intro main sub
    rw [combineHeaders, combineHeadersAux_length]
  · intro main sub j hj hm hs
    rw [combineHeaders, combineAux_getD (main.zip sub) 0 "" j hj]
    dsimp only
    rw [hm, if_neg (by simp), if_pos hs, hmap main sub j hj]
    rfl
  · intro main sub j hj hm hs
    rw [combineHeaders, combineAux_getD (main.zip sub) 0 "" j hj]
    dsimp only
    rw [hm, hs, if_neg (by simp), if_neg (by simp), if_neg (by simp), Nat.zero_add]

/-- Claim C8 witness: the carry-forward rule applied at position one of
the concrete example, where the top level is empty and the sub level is
`"Phụ cấp"`. -/
theorem c8_witness :
    (combineHeaders [Cell.str "Lương", Cell.empty, Cell.empty]
        [Cell.str "Cơ bản", Cell.str "Phụ cấp", Cell.empty]).getD 1 "" =
      (if lastTop ([Cell.str "Lương", Cell.empty, Cell.empty].take 2) ≠ "" then
        lastTop ([Cell.str "Lương", Cell.empty, Cell.empty].take 2) ++ " - " ++
          topText (([Cell.str "Lương", Cell.empty, Cell.empty].zip
            [Cell.str "Cơ bản", Cell.str "Phụ cấp", Cell.empty]).getD 1
              (Cell.empty, Cell.empty)).2
       else topText (([Cell.str "Lương", Cell.empty, Cell.empty].zip
            [Cell.str "Cơ bản", Cell.str "Phụ cấp", Cell.empty]).getD 1
              (Cell.empty, Cell.empty)).2) :=
  c8_theorem.2.2.1 [Cell.str "Lương", Cell.empty, Cell.empty]
    [Cell.str "Cơ bản", Cell.str "Phụ cấp", Cell.empty] 1 (by decide) (by decide) (by decide)

/-- Claim C9: slip totals — total deductions are the sum of the
social-insurance, union-fee, and tax deductions; total income equals the
actual salary; net pay is total income minus total deductions; and with
no salary record every salary-derived numeric field and every total is
zero. -/
theorem c9_theorem (employee_info : Record) (salary_data : Option Record)
    (df_info df_luong : DF) :
    (get_salary_slip_data employee_info salary_data df_info df_luong).tong_khoan_tru =
      (get_salary_slip_data employee_info salary_data df_info df_luong).bhxh +
      (get_salary_slip_data employee_info salary_data df_info df_luong).doan_phi +
      (get_salary_slip_data employee_info salary_data df_info df_luong).thue_tncn ∧
    (get_salary_slip_data employee_info salary_data df_info df_luong).tong_thu_nhap =
      (get_salary_slip_data employee_info salary_data df_info df_luong).luong_thuc_te ∧
    (get_salary_slip_data employee_info salary_data df_info df_luong).luong_thuc_nhan =
      (get_salary_slip_data employee_info salary_data df_info df_luong).tong_thu_nhap -
      (get_salary_slip_data employee_info salary_data df_info df_luong).tong_khoan_tru ∧
    (salary_data = none →
      (get_salary_slip_data employee_info salary_data df_info df_luong).bhxh = 0 ∧
      (get_salary_slip_data employee_info salary_data df_info df_luong).doan_phi = 0 ∧
      (get_salary_slip_data employee_info salary_data df_info df_luong).thue_tncn = 0 ∧
      (get_salary_slip_data employee_info salary_data df_info df_luong).luong_thuc_te = 0 ∧
      (get_salary_slip_data employee_info salary_data df_info df_luong).luong_dong = 0 ∧
      (get_salary_slip_data employee_info salary_data df_info df_luong).luong_thoa_thuan = 0 ∧
      (get_salary_slip_data employee_info salary_data df_info df_luong).tong_khoan_tru = 0 ∧
      (get_salary_slip_data employee_info salary_data df_info df_luong).tong_thu_nhap = 0 ∧
      (get_salary_slip_data employee_info salary_data df_info df_luong).luong_thuc_nhan = 0) := by
  have h0 := slipWithName_fields employee_info df_info
  have hf := foldl_infoStep_fields employee_info (slipWithName employee_info df_info)
  refine ⟨rfl, rfl, rfl, ?_⟩
  rintro rfl
  have hbhxh : (get_salary_slip_data employee_info none df_info df_luong).bhxh = 0 := by
    show (employee_info.foldl infoStep (slipWithName employee_info df_info)).bhxh = 0
    rw [hf.2.2.2.1, h0.2.2.2.1]
  have hdoan : (get_salary_slip_data employee_info none df_info df_luong).doan_phi = 0 := by
    show (employee_info.foldl infoStep (slipWithName employee_info df_info)).doan_phi = 0
    rw [hf.2.2.2.2.1, h0.2.2.2.2.1]
  have hthue : (get_salary_slip_data employee_info none df_info df_luong).thue_tncn = 0 := by
    show (employee_info.foldl infoStep (slipWithName employee_info df_info)).thue_tncn = 0
    rw [hf.2.2.2.2.2, h0.2.2.2.2.2]
  have hthuc : (get_salary_slip_data employee_info none df_info df_luong).luong_thuc_te = 0 := by
    show (employee_info.foldl infoStep (slipWithName employee_info df_info)).luong_thuc_te = 0
    rw [hf.2.2.1, h0.2.2.1]
  have hdong : (get_salary_slip_data employee_info none df_info df_luong).luong_dong = 0 := by
    show (employee_info.foldl infoStep (slipWithName employee_info df_info)).luong_dong = 0
    rw [hf.2.1, h0.2.1]
  have hthoa : (get_salary_slip_data employee_info none df_info df_luong).luong_thoa_thuan = 0 := by
    show (employee_info.foldl infoStep (slipWithName employee_info df_info)).luong_thoa_thuan = 0
    rw [hf.1, h0.1]
  have htkt : (get_salary_slip_data employee_info none df_info df_luong).tong_khoan_tru = 0 := by
    rw [show (get_salary_slip_data employee_info none df_info df_luong).tong_khoan_tru =
      (get_salary_slip_data employee_info none df_info df_luong).bhxh +
      (get_salary_slip_data employee_info none df_info df_luong).doan_phi +
      (get_salary_slip_data employee_info none df_info df_luong).thue_tncn from rfl,
      hbhxh, hdoan, hthue]
    norm_num
  have httn : (get_salary_slip_data employee_info none df_info df_luong).tong_thu_nhap = 0 := by
    rw [show (get_salary_slip_data employee_info none df_info df_luong).tong_thu_nhap =
      (get_salary_slip_data employee_info none df_info df_luong).luong_thuc_te from rfl, hthuc]
  have hltn : (get_salary_slip_data employee_info none df_info df_luong).luong_thuc_nhan = 0 := by
    rw [show (get_salary_slip_data employee_info none df_info df_luong).luong_thuc_nhan =
      (get_salary_slip_data employee_info none df_info df_luong).tong_thu_nhap -
      (get_salary_slip_data employee_info none df_info df_luong).tong_khoan_tru from rfl,
      htkt, httn]
    norm_num
  exact ⟨hbhxh, hdoan, hthue, hthuc, hdong, hthoa, htkt, httn, hltn⟩

/-- Claim C9 witness: with no salary record, a concrete slip has zero
social insurance and zero net pay. -/
theorem c9_witness :
    (get_salary_slip_data [("họ tên", Cell.str "A")] none ⟨["họ tên"], []⟩ ⟨[], []⟩).bhxh = 0 ∧
    (get_salary_slip_data [("họ tên", Cell.str "A")] none
      ⟨["họ tên"], []⟩ ⟨[], []⟩).luong_thuc_nhan = 0 := by
  have h := c9_theorem [("họ tên", Cell.str "A")] none ⟨["họ tên"], []⟩ ⟨[], []⟩
  have h2 := h.2.2.2 rfl
  exact ⟨h2.1, h2.2.2.2.2.2.2.2.2⟩

/-- Claim C10: placeholder columns (`_Col_` followed by a position) are
rejected by `is_valid_column`, every column surviving the normalizer is
free of the underscore prefix, and the externally returned column lists
built at upload contain only valid column names — in particular never a
placeholder. -/
theorem c10_theorem :
    (∀ k : ℕ, is_valid_column ("_Col_" ++ natLabel k) = false) ∧
    (∀ (marker : List Cell → Bool) (df : DF),
      ∀ c ∈ (cleanWith marker df).cols, strStarts c "_" = false) ∧
    (∀ (store : DataStore) (wb : List (String × DF)),
      (∀ c ∈ store.columns_thong_tin, is_valid_column c = true) →
      (∀ c ∈ store.columns_luong, is_valid_column c = true) →
      (∀ c ∈ (upload_file store wb).columns_thong_tin, is_valid_column c = true) ∧
      (∀ c ∈ (upload_file store wb).columns_luong, is_valid_column c = true) ∧
      (∀ k : ℕ, ("_Col_" ++ natLabel k) ∉ (upload_file store wb).columns_thong_tin ∧
        ("_Col_" ++ natLabel k) ∉ (upload_file store wb).columns_luong)) := by
  refine ⟨placeholder_invalid, cleanWith_cols_mem, ?_⟩
  intro store wb h1 h2
  obtain ⟨g1, g2⟩ := fold_cols_valid wb store h1 h2
  refine ⟨g1, g2, ?_⟩
  intro k
  constructor
  · intro hmem
    have := g1 _ hmem
    rw [placeholder_invalid k] at this
    exact absurd this (by simp)
  · intro hmem
    have := g2 _ hmem
    rw [placeholder_invalid k] at this
    exact absurd this (by simp)

/-- Claim C10 witness: after uploading the concrete workbook into the
initial store, the employee-info column list holds only valid names and
no placeholder. -/
theorem c10_witness :
    (∀ c ∈ (upload_file initialStore wbA).columns_thong_tin, is_valid_column c = true) ∧
    ("_Col_" ++ natLabel 2) ∉ (upload_file initialStore wbA).columns_thong_tin := by
  have h := c10_theorem.2.2 initialStore wbA (by simp [initialStore]) (by simp [initialStore])
  exact ⟨h.1, (h.2.2 2).1⟩
